import Mathlib

/-!
Shallow embedding of `movie_recommendations.py` (item-item collaborative
filtering).  Python `float` ratings are modelled as `ℚ` (all arithmetic in the
program is exact on the dyadic inputs of interest; the claims are about exact
values and formula structure).  Python `dict`s are modelled as insertion-ordered
association lists; `dict[k] = v` updates in place when the key is present and
appends otherwise.  Python exceptions are modelled by an error type threaded
through each operation together with the mutated state (mutations performed
before an exception persist, as in Python).  The field `compCount` is a ghost
counter incremented each time `compute_similarity` runs; it changes no other
behaviour.
-/

namespace MovieRec

/-- Errors a run can produce: Python `KeyError`, `TypeError`, and the
program's own `BadInputError`. -/
inductive PyErr where
  | keyError
  | typeError
  | badInput
  deriving DecidableEq

/-- `Movie` object: fields `id`, `title`, `users` (rater list, filled at load
time) and `similarities` (the per-movie cache). -/
structure Movie where
  id : ℤ
  title : String
  users : List ℤ
  similarities : List (ℤ × ℚ)
  deriving DecidableEq

/-- The in-memory state of a `Movie_Recommendations` object: `movie_dict`,
`user_dict`, plus the ghost computation counter. -/
structure Catalog where
  movie_dict : List (ℤ × Movie)
  user_dict : List (ℤ × List (ℤ × ℚ))
  compCount : ℕ
  deriving DecidableEq

/-- Python `d[k]` / `d.get(k)` lookup on an insertion-ordered dict. -/
def alookup {α : Type} : List (ℤ × α) → ℤ → Option α
  | [], _ => none
  | (k, v) :: rest, i => if i = k then some v else alookup rest i

/-- Python `d[k] = v`: replace in place when the key is present, append
otherwise. -/
def dictInsert {α : Type} : List (ℤ × α) → ℤ → α → List (ℤ × α)
  | [], k, v => [(k, v)]
  | (k0, w) :: rest, k, v =>
    if k0 = k then (k, v) :: rest else (k0, w) :: dictInsert rest k v

/-- Update the movie stored under key `mid` (first occurrence). -/
def setSimList : List (ℤ × Movie) → ℤ → ℤ → ℚ → List (ℤ × Movie)
  | [], _, _, _ => []
  | (k0, m) :: rest, mid, k, v =>
    if k0 = mid then (k0, { m with similarities := dictInsert m.similarities k v }) :: rest
    else (k0, m) :: setSimList rest mid k v

/-- Mutating `movie.similarities[k] = v` on the movie stored under key `mid`
(every movie object the engine touches is reached through `movie_dict`). -/
def setSim (cat : Catalog) (mid k : ℤ) (v : ℚ) : Catalog :=
  { cat with movie_dict := setSimList cat.movie_dict mid k v }

/-- Ghost tick recorded at each entry to `compute_similarity`. -/
def bump (cat : Catalog) : Catalog :=
  { cat with compCount := cat.compCount + 1 }

/-- Lines 191-193: build the two rating lists for the common users;
`user_dict[u]` raises `KeyError` when `u` is absent, `.get` returns an
option. -/
def gatherRatings (cat : Catalog) (selfId otherId : ℤ) :
    List ℤ → Except PyErr (List (Option ℚ × Option ℚ))
  | [] => Except.ok []
  | u :: rest =>
    match alookup cat.user_dict u with
    | none => Except.error PyErr.keyError
    | some rs =>
      match gatherRatings cat selfId otherId rest with
      | Except.error e => Except.error e
      | Except.ok l => Except.ok ((alookup rs selfId, alookup rs otherId) :: l)

/-- Lines 201-203: `abs(self_ratings[u] - another_ratings[u])`; subtracting a
Python `None` raises `TypeError`. -/
def absDiffs : List (Option ℚ × Option ℚ) → Except PyErr (List ℚ)
  | [] => Except.ok []
  | (some a, some b) :: rest =>
    match absDiffs rest with
    | Except.error e => Except.error e
    | Except.ok l => Except.ok (|a - b| :: l)
  | _ => Except.error PyErr.typeError

/-- `Movie.compute_similarity` (lines 176-207).  The loop over `self.users`
evaluates `movie_dict[other_movie_id]` only when `self.users` is non-empty, so
an unknown `other_movie_id` raises `KeyError` only in that case.  On a
non-empty intersection the result is also written into the calling movie's own
cache (line 206) — one side only. -/
def compute_similarity (self : Movie) (other_movie_id : ℤ) (cat : Catalog) :
    (Except PyErr ℚ) × Catalog :=
  let cat1 := bump cat
  if self.users = [] then (Except.ok 0, cat1)
  else
    match alookup cat1.movie_dict other_movie_id with
    | none => (Except.error PyErr.keyError, cat1)
    | some other =>
      let common_users := self.users.filter (fun u => decide (u ∈ other.users))
      match gatherRatings cat1 self.id other_movie_id common_users with
      | Except.error e => (Except.error e, cat1)
      | Except.ok pairs =>
        if common_users = [] then (Except.ok 0, cat1)
        else
          match absDiffs pairs with
          | Except.error e => (Except.error e, cat1)
          | Except.ok diff_list =>
            let avg_diff := diff_list.sum / (common_users.length : ℚ)
            let similarity := 1 - avg_diff / (4.5 : ℚ)
            (Except.ok similarity, setSim cat1 self.id other_movie_id similarity)

/-- The `try ... except KeyError: raise BadInputError` wrapper used by both
`get_similarity` and `predict_rating`: a `KeyError` escaping the body becomes
`BadInputError`; every other outcome passes through (mutations made before the
exception persist). -/
def catchKeyError (res : (Except PyErr ℚ) × Catalog) : (Except PyErr ℚ) × Catalog :=
  match res with
  | (Except.error PyErr.keyError, c) => (Except.error PyErr.badInput, c)
  | r => r

/-- `Movie.get_similarity` (lines 153-174): cache check, compute on miss, dual
write (lines 170-171), with `except KeyError: raise BadInputError`. -/
def get_similarity (self : Movie) (other_movie_id : ℤ) (cat : Catalog) :
    (Except PyErr ℚ) × Catalog :=
  catchKeyError <|
    match alookup self.similarities other_movie_id with
    | some v => ((Except.ok v : Except PyErr ℚ), cat)
    | none =>
      match compute_similarity self other_movie_id cat with
      | (Except.error e, cat1) => (Except.error e, cat1)
      | (Except.ok similarity, cat1) =>
        let cat2 := setSim cat1 self.id other_movie_id similarity
        match alookup cat2.movie_dict other_movie_id with
        | none => (Except.error PyErr.keyError, cat2)
        | some _ => (Except.ok similarity, setSim cat2 other_movie_id self.id similarity)

/-- The accumulation loop of `predict_rating` (lines 64-68):
`movie_dict[movie].compute_similarity(movie_id, ...)` — note: the cache is
never consulted here. -/
def predict_loop (movie_id : ℤ) (entries : List (ℤ × ℚ)) (product1 sim : ℚ)
    (cat : Catalog) : (Except PyErr (ℚ × ℚ)) × Catalog :=
  match entries with
  | [] => (Except.ok (product1, sim), cat)
  | (movie, rating) :: rest =>
    match alookup cat.movie_dict movie with
    | none => (Except.error PyErr.keyError, cat)
    | some mv =>
      match compute_similarity mv movie_id cat with
      | (Except.error e, cat1) => (Except.error e, cat1)
      | (Except.ok s, cat1) =>
        predict_loop movie_id rest (product1 + rating * s) (sim + s) cat1

/-- `Movie_Recommendations.predict_rating` (lines 50-75), including the
`except KeyError: raise BadInputError` wrapper. -/
def predict_rating (user_id movie_id : ℤ) (cat : Catalog) :
    (Except PyErr ℚ) × Catalog :=
  catchKeyError <|
    match alookup cat.user_dict user_id with
    | none => ((Except.error PyErr.keyError : Except PyErr ℚ), cat)
    | some ratings =>
      match alookup ratings movie_id with
      | some r => (Except.ok r, cat)
      | none =>
        match predict_loop movie_id ratings 0 0 cat with
        | (Except.error e, cat1) => (Except.error e, cat1)
        | (Except.ok (product1, sim), cat1) =>
          if sim = 0 then (Except.ok (2.5 : ℚ), cat1)
          else (Except.ok (product1 / sim), cat1)

/-- `Movie_Recommendations.predict_ratings` (lines 77-93) on an already parsed
batch of `(user id, movie id, actual rating)` rows.  The title lookup of
line 92 happens after the prediction; its `KeyError` is not caught. -/
def predict_ratings (cat : Catalog) :
    List (ℤ × ℤ × ℚ) → (Except PyErr (List (ℤ × String × ℚ × ℚ))) × Catalog
  | [] => (Except.ok [], cat)
  | (u, m, actual) :: rest =>
    match predict_rating u m cat with
    | (Except.error e, cat1) => (Except.error e, cat1)
    | (Except.ok p, cat1) =>
      match alookup cat1.movie_dict m with
      | none => (Except.error PyErr.keyError, cat1)
      | some mv =>
        match predict_ratings cat1 rest with
        | (Except.error e, cat2) => (Except.error e, cat2)
        | (Except.ok l, cat2) => (Except.ok ((u, mv.title, p, actual) :: l), cat2)

/-- An engine operation as issued by a caller: either
`movie_dict[a].get_similarity(b, ...)` or `predict_rating(u, m)`. -/
inductive EngineOp where
  | getSim (a b : ℤ)
  | predict (u m : ℤ)

/-- Caller-side dispatch `movie_dict[a].get_similarity(b, ...)`. -/
def get_similarity_op (a b : ℤ) (cat : Catalog) : (Except PyErr ℚ) × Catalog :=
  match alookup cat.movie_dict a with
  | none => (Except.error PyErr.keyError, cat)
  | some m => get_similarity m b cat

/-- State transition of one engine operation. -/
def runOp (cat : Catalog) : EngineOp → Catalog
  | EngineOp.getSim a b => (get_similarity_op a b cat).2
  | EngineOp.predict u m => (predict_rating u m cat).2

/-- State after a sequence of engine operations. -/
def runOps (cat : Catalog) (ops : List EngineOp) : Catalog :=
  ops.foldl runOp cat

/-- The load-invariant data of a movie entry: id, title and rater list —
everything except the similarity cache and ghost counter. -/
def mdata (cat : Catalog) (i : ℤ) : Option (ℤ × String × List ℤ) :=
  (alookup cat.movie_dict i).map (fun m => (m.id, m.title, m.users))

/-- Display title of a movie id. -/
def titleOf (cat : Catalog) (i : ℤ) : Option String :=
  (alookup cat.movie_dict i).map (fun m => m.title)

/-- The rating user `u` gave movie `mid` (the default is never reached on a
well-formed catalog at the call sites where this is used). -/
def ratingOf (cat : Catalog) (u mid : ℤ) : ℚ :=
  (alookup ((alookup cat.user_dict u).getD []) mid).getD 0

/-- The common raters of movies `a` and `b`, enumerated as the source does:
`a`'s rater list filtered by membership in `b`'s. -/
def commonRaters (cat : Catalog) (a b : ℤ) : List ℤ :=
  match alookup cat.movie_dict a, alookup cat.movie_dict b with
  | some ma, some mb => ma.users.filter (fun u => decide (u ∈ mb.users))
  | _, _ => []

/-- The similarity value of the pair `(a, b)`: 0 on an empty co-rater set,
otherwise `1 - (average absolute rating difference / 4.5)`. -/
def simValue (cat : Catalog) (a b : ℤ) : ℚ :=
  let c := commonRaters cat a b
  if c = [] then 0
  else 1 - ((c.map (fun u => |ratingOf cat u a - ratingOf cat u b|)).sum / (c.length : ℚ)) / (4.5 : ℚ)

/-- `u` appears in `user_dict` with a rating recorded for `mid`. -/
def hasRating (cat : Catalog) (u mid : ℤ) : Bool :=
  ((alookup cat.user_dict u).bind (fun rs => alookup rs mid)).isSome

/-- Movie `mid` is in the catalog and lists `u` among its raters. -/
def movieHasRater (cat : Catalog) (mid u : ℤ) : Bool :=
  match alookup cat.movie_dict mid with
  | some m => decide (u ∈ m.users)
  | none => false

/-- Integrity of a loaded catalog (established by the load path `__init__`):
unique keys, each movie stored under its own id with a duplicate-free rater
list, each rater of a movie holding a rating for it, and each rated movie
present in the catalog with the user listed among its raters. -/
def WF (cat : Catalog) : Prop :=
  (cat.movie_dict.map Prod.fst).Nodup ∧
  (cat.user_dict.map Prod.fst).Nodup ∧
  (∀ p ∈ cat.movie_dict, p.2.id = p.1 ∧ p.2.users.Nodup ∧
    ∀ u ∈ p.2.users, hasRating cat u p.1 = true) ∧
  (∀ q ∈ cat.user_dict, (q.2.map Prod.fst).Nodup ∧
    ∀ e ∈ q.2, movieHasRater cat e.1 q.1 = true)

instance : DecidablePred WF := fun cat => by
  unfold WF
  infer_instance

/-- The similarity caches form a symmetric relation on stored movies, with
numerically identical values on both sides. -/
def SymState (cat : Catalog) : Prop :=
  ∀ p ∈ cat.movie_dict, ∀ q ∈ cat.movie_dict,
    alookup p.2.similarities q.1 = alookup q.2.similarities p.1

instance : DecidablePred SymState := fun cat => by
  unfold SymState
  infer_instance

/-- Demo movie 1 "A", rated by users 10 and 12. -/
def demoMovie1 : Movie := { id := 1, title := "A", users := [10, 12], similarities := [] }

/-- Demo movie 2 "B", rated by user 10. -/
def demoMovie2 : Movie := { id := 2, title := "B", users := [10], similarities := [] }

/-- Demo movie 3 "C", with no raters. -/
def demoMovie3 : Movie := { id := 3, title := "C", users := [], similarities := [] }

/-- A small freshly loaded catalog: movie 1 "A" rated by users 10 (4.0) and
12 (3.0); movie 2 "B" rated by user 10 (5.0); movie 3 "C" with no raters. -/
def demoCat : Catalog :=
  { movie_dict := [(1, demoMovie1), (2, demoMovie2), (3, demoMovie3)],
    user_dict :=
      [ (10, [(1, 4), (2, 5)]),
        (12, [(1, 3)]) ],
    compCount := 0 }

/-- Movie 1 of the counterexample catalog `cxCat`. -/
def cxMovie1 : Movie := { id := 1, title := "A", users := [10], similarities := [] }

/-- Movie 2 of the counterexample catalog `cxCat`. -/
def cxMovie2 : Movie := { id := 2, title := "B", users := [10], similarities := [] }

/-- Freshly loaded catalog witnessing that the similarity formula itself can
produce 0: the single common rater of movies 1 and 2 rated them 5.0 and 0.5,
so the average absolute difference is the maximal 4.5. -/
def cxCat : Catalog :=
  { movie_dict := [(1, cxMovie1), (2, cxMovie2)],
    user_dict := [ (10, [(1, 5), (2, 1/2)]) ],
    compCount := 0 }

/-! ### Association-list lemmas -/

theorem alookup_mem {α : Type} {l : List (ℤ × α)} {i : ℤ} {v : α}
    (h : alookup l i = some v) : (i, v) ∈ l := by
  induction l with
  | nil => simp [alookup] at h
  | cons p rest ih =>
    obtain ⟨k, w⟩ := p
    by_cases hik : i = k
    · subst hik
      simp [alookup] at h
      simp [h]
    · simp [alookup, hik] at h
      simp [ih h]

theorem alookup_append {α : Type} (l1 l2 : List (ℤ × α)) (i : ℤ) :
    alookup (l1 ++ l2) i = ((alookup l1 i).orElse (fun _ => alookup l2 i)) := by
  induction l1 with
  | nil => simp [alookup]
  | cons p rest ih =>
    by_cases hik : i = p.1
    · simp [alookup, hik]
    · simp [alookup, hik, ih]

theorem dictInsert_alookup {α : Type} (d : List (ℤ × α)) (k : ℤ) (v : α) (i : ℤ) :
    alookup (dictInsert d k v) i = if i = k then some v else alookup d i := by
  induction d with
  | nil => by_cases hik : i = k <;> simp [dictInsert, alookup, hik]
  | cons p rest ih =>
    obtain ⟨k0, w⟩ := p
    by_cases hkk : k0 = k
    · subst hkk
      by_cases hik : i = k0
      · subst hik
        simp [dictInsert, alookup]
      · simp [dictInsert, alookup, hik]
    · by_cases hik : i = k0
      · subst hik
        have hik2 : ¬i = k := fun h => hkk h
        simp [dictInsert, hkk, alookup, hik2]
      · simp [dictInsert, hkk, alookup, hik, ih]

theorem dictInsert_keys_isSome {α : Type} (d : List (ℤ × α)) (k : ℤ) (v : α) (i : ℤ) :
    (alookup (dictInsert d k v) i).isSome =
      (if i = k then true else (alookup d i).isSome) := by
  induction d with
  | nil => by_cases hik : i = k <;> simp [dictInsert, alookup, hik]
  | cons p rest ih =>
    obtain ⟨k0, w⟩ := p
    by_cases hkk : k0 = k
    · subst hkk
      by_cases hik : i = k0
      · subst hik
        simp [dictInsert, alookup]
      · simp [dictInsert, alookup, hik]
    · by_cases hik : i = k0
      · subst hik
        simp [dictInsert, hkk, alookup]
      · simp [dictInsert, hkk, alookup, hik, ih]

theorem setSim_user_dict (cat : Catalog) (mid k : ℤ) (v : ℚ) :
    (setSim cat mid k v).user_dict = cat.user_dict := rfl

theorem setSim_compCount (cat : Catalog) (mid k : ℤ) (v : ℚ) :
    (setSim cat mid k v).compCount = cat.compCount := rfl

theorem setSim_alookup (cat : Catalog) (mid k : ℤ) (v : ℚ) (i : ℤ) :
    alookup (setSim cat mid k v).movie_dict i =
      if i = mid then
        (alookup cat.movie_dict i).map
          (fun m => { m with similarities := dictInsert m.similarities k v })
      else alookup cat.movie_dict i := by
  unfold setSim
  show alookup (setSimList cat.movie_dict mid k v) i = _
  induction cat.movie_dict with
  | nil => by_cases hik : i = mid <;> simp [setSimList, alookup, hik]
  | cons p rest ih =>
    obtain ⟨k0, m0⟩ := p
    by_cases h0 : k0 = mid
    · subst h0
      by_cases hik : i = k0
      · subst hik
        simp [setSimList, alookup]
      · simp [setSimList, alookup, hik]
    · by_cases hik : i = k0
      · subst hik
        have hmi : ¬i = mid := fun h => h0 h
        simp [setSimList, h0, alookup, hmi]
      · simp [setSimList, h0, alookup, hik, ih]

theorem setSim_keys (cat : Catalog) (mid k : ℤ) (v : ℚ) :
    (setSim cat mid k v).movie_dict.map Prod.fst = cat.movie_dict.map Prod.fst := by
  unfold setSim
  show (setSimList cat.movie_dict mid k v).map Prod.fst = _
  induction cat.movie_dict with
  | nil => simp [setSimList]
  | cons p rest ih =>
    obtain ⟨k0, m0⟩ := p
    by_cases h0 : k0 = mid <;> simp [setSimList, h0, ih]

theorem mdata_setSim (cat : Catalog) (mid k : ℤ) (v : ℚ) (i : ℤ) :
    mdata (setSim cat mid k v) i = mdata cat i := by
  unfold mdata
  rw [setSim_alookup]
  by_cases hik : i = mid
  · subst hik
    cases h : alookup cat.movie_dict i <;> simp [h]
  · simp [hik]

theorem mdata_bump (cat : Catalog) (i : ℤ) : mdata (bump cat) i = mdata cat i := rfl

theorem alookup_bump (cat : Catalog) (i : ℤ) :
    alookup (bump cat).movie_dict i = alookup cat.movie_dict i := rfl

/-! ### Preservation of catalog integrity under cache writes -/

theorem hasRating_setSim (cat : Catalog) (mid k : ℤ) (v : ℚ) (u x : ℤ) :
    hasRating (setSim cat mid k v) u x = hasRating cat u x := rfl

theorem movieHasRater_setSim (cat : Catalog) (mid k : ℤ) (v : ℚ) (x u : ℤ) :
    movieHasRater (setSim cat mid k v) x u = movieHasRater cat x u := by
  unfold movieHasRater
  rw [setSim_alookup]
  by_cases hik : x = mid
  · subst hik
    cases h : alookup cat.movie_dict x <;> simp [h]
  · simp [hik]

theorem setSimList_mem {l : List (ℤ × Movie)} {mid k : ℤ} {v : ℚ} {p : ℤ × Movie}
    (hp : p ∈ setSimList l mid k v) :
    ∃ q ∈ l, p.1 = q.1 ∧ p.2.id = q.2.id ∧ p.2.title = q.2.title ∧ p.2.users = q.2.users := by
  induction l with
  | nil => simp [setSimList] at hp
  | cons q0 rest ih =>
    obtain ⟨k0, m0⟩ := q0
    by_cases h0 : k0 = mid
    · subst h0
      simp only [setSimList, if_pos rfl, eq_self_iff_true, if_true, List.mem_cons] at hp
      rcases hp with hp | hp
      · subst hp
        exact ⟨(k0, m0), List.mem_cons_self _ _, rfl, rfl, rfl, rfl⟩
      · exact ⟨p, List.mem_cons_of_mem _ hp, rfl, rfl, rfl, rfl⟩
    · simp only [setSimList, h0, if_false, List.mem_cons] at hp
      rcases hp with hp | hp
      · subst hp
        exact ⟨(k0, m0), List.mem_cons_self _ _, rfl, rfl, rfl, rfl⟩
      · obtain ⟨q, hq, hfacts⟩ := ih hp
        exact ⟨q, List.mem_cons_of_mem _ hq, hfacts⟩

theorem WF_setSim {cat : Catalog} (hWF : WF cat) (mid k : ℤ) (v : ℚ) :
    WF (setSim cat mid k v) := by
  obtain ⟨h1, h2, h3, h4⟩ := hWF
  refine ⟨?_, ?_, ?_, ?_⟩
  · rw [setSim_keys]; exact h1
  · exact h2
  · intro p hp
    obtain ⟨q, hq, hk, hid, htitle, husers⟩ := setSimList_mem hp
    obtain ⟨hq1, hq2, hq3⟩ := h3 q hq
    refine ⟨by rw [hid, hk]; exact hq1, by rw [husers]; exact hq2, ?_⟩
    intro u hu
    rw [hasRating_setSim, hk]
    exact hq3 u (by rw [husers] at hu; exact hu)
  · intro q hq
    have hq2 := h4 q hq
    refine ⟨hq2.1, ?_⟩
    intro e he
    rw [movieHasRater_setSim]
    exact hq2.2 e he

theorem WF_bump {cat : Catalog} (hWF : WF cat) : WF (bump cat) := by
  obtain ⟨h1, h2, h3, h4⟩ := hWF
  exact ⟨h1, h2, h3, h4⟩

/-! ### Shape of the state after `compute_similarity` -/

theorem compute_similarity_state (self : Movie) (b : ℤ) (cat : Catalog) :
    (compute_similarity self b cat).2 = bump cat ∨
    ∃ v : ℚ, (compute_similarity self b cat).2 = setSim (bump cat) self.id b v := by
  simp only [compute_similarity]
  split
  · left; rfl
  · split
    · left; rfl
    · split
      · left; rfl
      · split
        · left; rfl
        · split
          · left; rfl
          · right; exact ⟨_, rfl⟩

theorem compute_similarity_user_dict (self : Movie) (b : ℤ) (cat : Catalog) :
    (compute_similarity self b cat).2.user_dict = cat.user_dict := by
  rcases compute_similarity_state self b cat with h | ⟨v, h⟩ <;> rw [h] <;> rfl

theorem compute_similarity_compCount (self : Movie) (b : ℤ) (cat : Catalog) :
    (compute_similarity self b cat).2.compCount = cat.compCount + 1 := by
  rcases compute_similarity_state self b cat with h | ⟨v, h⟩ <;> rw [h] <;> rfl

theorem compute_similarity_mdata (self : Movie) (b : ℤ) (cat : Catalog) (i : ℤ) :
    mdata (compute_similarity self b cat).2 i = mdata cat i := by
  rcases compute_similarity_state self b cat with h | ⟨v, h⟩
  · rw [h]; rfl
  · rw [h, mdata_setSim, mdata_bump]

theorem compute_similarity_alookup_other (self : Movie) (b : ℤ) (cat : Catalog)
    (i : ℤ) (hi : i ≠ self.id) :
    alookup (compute_similarity self b cat).2.movie_dict i = alookup cat.movie_dict i := by
  rcases compute_similarity_state self b cat with h | ⟨v, h⟩
  · rw [h]; rfl
  · rw [h, setSim_alookup, if_neg hi, alookup_bump]

theorem WF_compute {cat : Catalog} (hWF : WF cat) (self : Movie) (b : ℤ) :
    WF (compute_similarity self b cat).2 := by
  rcases compute_similarity_state self b cat with h | ⟨v, h⟩
  · rw [h]; exact WF_bump hWF
  · rw [h]; exact WF_setSim (WF_bump hWF) _ _ _

/-! ### Evaluating `compute_similarity` on a well-formed catalog -/

theorem hasRating_elim {cat : Catalog} {u mid : ℤ} (h : hasRating cat u mid = true) :
    ∃ rs v, alookup cat.user_dict u = some rs ∧ alookup rs mid = some v := by
  unfold hasRating at h
  cases hu : alookup cat.user_dict u with
  | none => rw [hu] at h; simp at h
  | some rs =>
    rw [hu] at h
    cases hr : alookup rs mid with
    | none => simp [hr] at h
    | some v => exact ⟨rs, v, rfl, hr⟩

theorem movieHasRater_elim {cat : Catalog} {mid u : ℤ} (h : movieHasRater cat mid u = true) :
    ∃ m, alookup cat.movie_dict mid = some m ∧ u ∈ m.users := by
  unfold movieHasRater at h
  cases hm : alookup cat.movie_dict mid with
  | none => rw [hm] at h; simp at h
  | some m =>
    rw [hm] at h
    exact ⟨m, rfl, by simpa using h⟩

theorem ratingOf_eq {cat : Catalog} {u mid : ℤ} {rs : List (ℤ × ℚ)} {v : ℚ}
    (hu : alookup cat.user_dict u = some rs) (hr : alookup rs mid = some v) :
    ratingOf cat u mid = v := by
  unfold ratingOf
  rw [hu]
  simp [hr]

theorem gatherRatings_ok (cat : Catalog) (selfId otherId : ℤ) (l : List ℤ)
    (h : ∀ u ∈ l, hasRating cat u selfId = true ∧ hasRating cat u otherId = true) :
    gatherRatings cat selfId otherId l =
      Except.ok (l.map (fun u => (some (ratingOf cat u selfId), some (ratingOf cat u otherId)))) := by
  induction l with
  | nil => rfl
  | cons u rest ih =>
    obtain ⟨h1, h2⟩ := h u (List.mem_cons_self _ _)
    obtain ⟨rs, v1, hu, hv1⟩ := hasRating_elim h1
    obtain ⟨rs2, v2, hu2, hv2⟩ := hasRating_elim h2
    rw [hu2] at hu
    injection hu with hu
    subst hu
    have hrest := ih (fun u hu => h u (List.mem_cons_of_mem _ hu))
    unfold gatherRatings
    rw [hu2, hrest]
    simp [hv1, hv2, ratingOf_eq hu2 hv1, ratingOf_eq hu2 hv2]

theorem absDiffs_map_some (l : List ℤ) (f g : ℤ → ℚ) :
    absDiffs (l.map (fun u => (some (f u), some (g u)))) =
      Except.ok (l.map (fun u => |f u - g u|)) := by
  induction l with
  | nil => rfl
  | cons u rest ih =>
    unfold absDiffs
    simp only [List.map_cons]
    rw [ih]

theorem compute_similarity_ok {cat : Catalog} (hWF : WF cat) {a b : ℤ} {ma mb : Movie}
    (ha : alookup cat.movie_dict a = some ma) (hb : alookup cat.movie_dict b = some mb) :
    (compute_similarity ma b cat).1 = Except.ok (simValue cat a b) := by
  obtain ⟨hk1, hk2, h3, h4⟩ := hWF
  have hmem : (a, ma) ∈ cat.movie_dict := alookup_mem ha
  have hmemb : (b, mb) ∈ cat.movie_dict := alookup_mem hb
  have hida : ma.id = a := (h3 _ hmem).1
  have hcommon : commonRaters cat a b = ma.users.filter (fun u => decide (u ∈ mb.users)) := by
    unfold commonRaters
    rw [ha, hb]
  have hrat : ∀ u ∈ ma.users.filter (fun u => decide (u ∈ mb.users)),
      hasRating cat u a = true ∧ hasRating cat u b = true := by
    intro u hu
    rw [List.mem_filter] at hu
    obtain ⟨hua, hub⟩ := hu
    exact ⟨(h3 _ hmem).2.2 u hua, (h3 _ hmemb).2.2 u (by simpa using hub)⟩
  by_cases hus : ma.users = []
  · have hce : commonRaters cat a b = [] := by rw [hcommon, hus]; rfl
    simp [compute_similarity, hus, simValue, hce]
  · have hgr : gatherRatings (bump cat) ma.id b (ma.users.filter (fun u => decide (u ∈ mb.users))) =
        Except.ok ((ma.users.filter (fun u => decide (u ∈ mb.users))).map
          (fun u => (some (ratingOf cat u a), some (ratingOf cat u b)))) := by
      rw [hida]
      exact gatherRatings_ok (bump cat) a b _ hrat
    have hbl : alookup (bump cat).movie_dict b = some mb := hb
    by_cases hc : ma.users.filter (fun u => decide (u ∈ mb.users)) = []
    · simp [compute_similarity, hus, hbl, hgr, hc, simValue, hcommon, gatherRatings]
    · simp [compute_similarity, hus, hbl, hgr, hc, absDiffs_map_some, simValue, hcommon]

/-! ### `simValue` depends only on the load-time data -/

/-- Rater list of a movie id. -/
def usersOf (cat : Catalog) (i : ℤ) : Option (List ℤ) :=
  (alookup cat.movie_dict i).map Movie.users

theorem commonRaters_eq_usersOf (cat : Catalog) (a b : ℤ) :
    commonRaters cat a b =
      match usersOf cat a, usersOf cat b with
      | some ua, some ub => ua.filter (fun u => decide (u ∈ ub))
      | _, _ => [] := by
  unfold commonRaters usersOf
  cases h1 : alookup cat.movie_dict a <;> cases h2 : alookup cat.movie_dict b <;> simp

theorem usersOf_congr {c1 c2 : Catalog} (hm : ∀ i, mdata c2 i = mdata c1 i) :
    usersOf c2 = usersOf c1 := by
  funext i
  have h := hm i
  unfold mdata at h
  unfold usersOf
  cases h1 : alookup c1.movie_dict i <;> cases h2 : alookup c2.movie_dict i <;>
    rw [h1, h2] at h <;> simp_all

theorem ratingOf_congr {c1 c2 : Catalog} (hu : c2.user_dict = c1.user_dict) :
    ratingOf c2 = ratingOf c1 := by
  funext u mid
  unfold ratingOf
  rw [hu]

theorem simValue_congr {c1 c2 : Catalog} (hu : c2.user_dict = c1.user_dict)
    (hm : ∀ i, mdata c2 i = mdata c1 i) : simValue c2 = simValue c1 := by
  funext a b
  unfold simValue
  rw [commonRaters_eq_usersOf, commonRaters_eq_usersOf, usersOf_congr hm,
    ratingOf_congr hu]

/-! ### The accumulation loop of `predict_rating` on a well-formed catalog -/

theorem predict_loop_ok (movie_id : ℤ) (entries : List (ℤ × ℚ)) (product1 sim : ℚ)
    (cat : Catalog) (hWF : WF cat) (hmid : (alookup cat.movie_dict movie_id).isSome)
    (hsub : ∀ p ∈ entries, (alookup cat.movie_dict p.1).isSome) :
    ∃ catN,
      predict_loop movie_id entries product1 sim cat =
        (Except.ok (product1 + (entries.map (fun p => p.2 * simValue cat p.1 movie_id)).sum,
                    sim + (entries.map (fun p => simValue cat p.1 movie_id)).sum), catN) ∧
      WF catN ∧ catN.user_dict = cat.user_dict ∧ (∀ i, mdata catN i = mdata cat i) ∧
      catN.compCount = cat.compCount + entries.length := by
  induction entries generalizing cat product1 sim with
  | nil =>
    refine ⟨cat, ?_, hWF, rfl, fun i => rfl, rfl⟩
    simp [predict_loop]
  | cons p rest ih =>
    obtain ⟨movie, rating⟩ := p
    have hmv : (alookup cat.movie_dict movie).isSome := hsub _ (List.mem_cons_self _ _)
    rw [Option.isSome_iff_exists] at hmv
    obtain ⟨mv, hmv⟩ := hmv
    have hmidv := hmid
    rw [Option.isSome_iff_exists] at hmidv
    obtain ⟨mvT, hmidv⟩ := hmidv
    have hok := compute_similarity_ok hWF hmv hmidv
    have hWF1 := WF_compute hWF mv movie_id
    have hud1 := compute_similarity_user_dict mv movie_id cat
    have hmd1 := compute_similarity_mdata mv movie_id cat
    have hcc1 := compute_similarity_compCount mv movie_id cat
    set cat1 := (compute_similarity mv movie_id cat).2 with hcat1
    have hmid1 : (alookup cat1.movie_dict movie_id).isSome := by
      have hmdd := hmd1 movie_id
      unfold mdata at hmdd
      rw [hmidv] at hmdd
      cases h : alookup cat1.movie_dict movie_id
      · rw [h] at hmdd; simp at hmdd
      · simp
    have hsub1 : ∀ p ∈ rest, (alookup cat1.movie_dict p.1).isSome := by
      intro q hq
      have hs := hsub q (List.mem_cons_of_mem _ hq)
      have hmdd := hmd1 q.1
      unfold mdata at hmdd
      cases h1 : alookup cat1.movie_dict q.1
      · rw [h1] at hmdd
        cases h0 : alookup cat.movie_dict q.1
        · rw [h0] at hs; simp at hs
        · rw [h0] at hmdd; simp at hmdd
      · simp
    obtain ⟨catN, hloop, hWFN, hudN, hmdN, hccN⟩ :=
      ih (product1 + rating * simValue cat movie movie_id)
        (sim + simValue cat movie movie_id) cat1 hWF1 hmid1 hsub1
    have hsv : simValue cat1 = simValue cat := by
      apply simValue_congr hud1 hmd1
    refine ⟨catN, ?_, hWFN, by rw [hudN, hud1], fun i => by rw [hmdN i, hmd1 i], ?_⟩
    · have hpair : compute_similarity mv movie_id cat =
          (Except.ok (simValue cat movie movie_id), cat1) := by
        rw [← hok, hcat1]
      simp only [predict_loop, hmv, hpair]
      rw [hsv] at hloop
      rw [hloop]
      simp only [List.map_cons, List.sum_cons, Prod.mk.injEq, Except.ok.injEq]
      refine ⟨⟨by ring, by ring⟩, trivial⟩
    · rw [hccN, hcc1]
      simp [List.length_cons]
      ring

/-! ### The exception wrapper and frame lemmas -/

theorem catchKeyError_snd (res : (Except PyErr ℚ) × Catalog) :
    (catchKeyError res).2 = res.2 := by
  obtain ⟨r, c⟩ := res
  cases r with
  | error e => cases e <;> rfl
  | ok v => rfl

theorem catchKeyError_ok (v : ℚ) (c : Catalog) :
    catchKeyError (Except.ok v, c) = (Except.ok v, c) := rfl

theorem catchKeyError_fst_error {res : (Except PyErr ℚ) × Catalog} {e : PyErr}
    (h : (catchKeyError res).1 = Except.error e) :
    ∃ e0, res.1 = Except.error e0 ∧
      e = (if e0 = PyErr.keyError then PyErr.badInput else e0) := by
  obtain ⟨r, c⟩ := res
  cases r with
  | error e0 =>
    refine ⟨e0, rfl, ?_⟩
    cases e0 <;> simp [catchKeyError] at h <;> subst h <;> simp
  | ok v => simp [catchKeyError] at h

theorem predict_loop_frame (movie_id : ℤ) (entries : List (ℤ × ℚ)) (p s : ℚ)
    (cat : Catalog) :
    (predict_loop movie_id entries p s cat).2.user_dict = cat.user_dict ∧
    ∀ i, mdata (predict_loop movie_id entries p s cat).2 i = mdata cat i := by
  induction entries generalizing p s cat with
  | nil => exact ⟨rfl, fun i => rfl⟩
  | cons q rest ih =>
    obtain ⟨movie, rating⟩ := q
    cases hmv : alookup cat.movie_dict movie with
    | none => refine ⟨?_, fun i => ?_⟩ <;> simp [predict_loop, hmv]
    | some mv =>
      have hud := compute_similarity_user_dict mv movie_id cat
      have hmd := compute_similarity_mdata mv movie_id cat
      rcases hcs : compute_similarity mv movie_id cat with ⟨r, cat1⟩
      rw [hcs] at hud hmd
      cases r with
      | error e => simp only [predict_loop, hmv, hcs]; exact ⟨hud, hmd⟩
      | ok sv =>
        simp only [predict_loop, hmv, hcs]
        obtain ⟨ihu, ihm⟩ := ih (p + rating * sv) (s + sv) cat1
        exact ⟨by rw [ihu, hud], fun i => by rw [ihm i, hmd i]⟩

theorem predict_rating_frame (user_id movie_id : ℤ) (cat : Catalog) :
    (predict_rating user_id movie_id cat).2.user_dict = cat.user_dict ∧
    ∀ i, mdata (predict_rating user_id movie_id cat).2 i = mdata cat i := by
  cases hu : alookup cat.user_dict user_id with
  | none =>
    simp only [predict_rating, hu]
    rw [catchKeyError_snd]
    exact ⟨rfl, fun i => rfl⟩
  | some ratings =>
    cases hr : alookup ratings movie_id with
    | some r =>
      simp only [predict_rating, hu, hr]
      rw [catchKeyError_snd]
      exact ⟨rfl, fun i => rfl⟩
    | none =>
      have hfr := predict_loop_frame movie_id ratings 0 0 cat
      rcases hpl : predict_loop movie_id ratings 0 0 cat with ⟨r1, cat1⟩
      rw [hpl] at hfr
      cases r1 with
      | error e =>
        simp only [predict_rating, hu, hr, hpl]
        rw [catchKeyError_snd]
        exact hfr
      | ok pr =>
        obtain ⟨p1, s1⟩ := pr
        by_cases hz : s1 = 0 <;>
          simp only [predict_rating, hu, hr, hpl, hz, if_true, if_false, if_neg,
            not_false_iff] <;>
          rw [catchKeyError_snd] <;> exact hfr

theorem get_similarity_frame (self : Movie) (b : ℤ) (cat : Catalog) :
    (get_similarity self b cat).2.user_dict = cat.user_dict ∧
    ∀ i, mdata (get_similarity self b cat).2 i = mdata cat i := by
  cases hc : alookup self.similarities b with
  | some v =>
    simp only [get_similarity, hc]
    rw [catchKeyError_snd]
    exact ⟨rfl, fun i => rfl⟩
  | none =>
    have hud := compute_similarity_user_dict self b cat
    have hmd := compute_similarity_mdata self b cat
    rcases hcs : compute_similarity self b cat with ⟨r, cat1⟩
    rw [hcs] at hud hmd
    cases r with
    | error e =>
      simp only [get_similarity, hc, hcs]
      rw [catchKeyError_snd]
      exact ⟨hud, hmd⟩
    | ok sv =>
      cases hlk : alookup (setSim cat1 self.id b sv).movie_dict b with
      | none =>
        simp only [get_similarity, hc, hcs, hlk]
        rw [catchKeyError_snd]
        refine ⟨?_, ?_⟩
        · show (setSim cat1 self.id b sv).user_dict = cat.user_dict
          rw [setSim_user_dict, hud]
        · intro i
          show mdata (setSim cat1 self.id b sv) i = mdata cat i
          rw [mdata_setSim, hmd i]
      | some mo =>
        simp only [get_similarity, hc, hcs, hlk]
        rw [catchKeyError_snd]
        refine ⟨?_, ?_⟩
        · show (setSim (setSim cat1 self.id b sv) b self.id sv).user_dict = cat.user_dict
          rw [setSim_user_dict, setSim_user_dict, hud]
        · intro i
          show mdata (setSim (setSim cat1 self.id b sv) b self.id sv) i = mdata cat i
          rw [mdata_setSim, mdata_setSim, hmd i]

/-- C9: every engine operation (a `get_similarity` dispatch or a
`predict_rating` call) leaves the `user_dict` — hence every per-user rating
map — unchanged, and leaves every movie's `id`, `title` and rater list
(`users`) unchanged for every key of `movie_dict`: only the per-movie
similarity caches (and the ghost counter) can change. -/
theorem C9_engine_ops_frame (op : EngineOp) (cat : Catalog) :
    (runOp cat op).user_dict = cat.user_dict ∧
    ∀ i, mdata (runOp cat op) i = mdata cat i := by
  cases op with
  | getSim a b =>
    simp only [runOp, get_similarity_op]
    cases h : alookup cat.movie_dict a with
    | none => exact ⟨rfl, fun i => rfl⟩
    | some m => exact get_similarity_frame m b cat
  | predict u m => exact predict_rating_frame u m cat

/-! ### The claims about `predict_rating` -/

/-- C3: if the user already has a recorded rating `r` for the movie,
`predict_rating` returns exactly `r` and the whole state — including the
ghost computation counter — is unchanged, so no similarity computation is
invoked, regardless of any other data in the catalog (no well-formedness
hypothesis is needed). -/
theorem C3_exact_recall (cat : Catalog) (user_id movie_id : ℤ)
    (ratings : List (ℤ × ℚ)) (r : ℚ)
    (hu : alookup cat.user_dict user_id = some ratings)
    (hr : alookup ratings movie_id = some r) :
    predict_rating user_id movie_id cat = (Except.ok r, cat) := by
  simp only [predict_rating, hu, hr, catchKeyError_ok]

/-- Witness for C3 on the concrete demo catalog: user 10 rated movie 1 with
4.0, and that exact value is returned with the state untouched. -/
theorem C3_exact_recall_witness :
    predict_rating 10 1 demoCat = (Except.ok 4, demoCat) :=
  C3_exact_recall demoCat 10 1 [(1, 4), (2, 5)] 4 rfl rfl

/-- C2: for a user and movie both in the catalog, when the user has no
recorded rating for the movie, `predict_rating` returns
`Σ(rating × similarity) / Σ(similarity)` over every movie the user has rated
(similarities taken between the rated movie and the target, with no sign or
magnitude filtering), except that it returns exactly 2.5 when the weight sum
is exactly 0. -/
theorem C2_weighted_prediction (cat : Catalog) (hWF : WF cat)
    (user_id movie_id : ℤ) (ratings : List (ℤ × ℚ)) (mv : Movie)
    (hu : alookup cat.user_dict user_id = some ratings)
    (hm : alookup cat.movie_dict movie_id = some mv)
    (hnr : alookup ratings movie_id = none) :
    (predict_rating user_id movie_id cat).1 =
      Except.ok
        (if (ratings.map (fun p => simValue cat p.1 movie_id)).sum = 0 then (2.5 : ℚ)
         else (ratings.map (fun p => p.2 * simValue cat p.1 movie_id)).sum /
              (ratings.map (fun p => simValue cat p.1 movie_id)).sum) := by
  have hsub : ∀ p ∈ ratings, (alookup cat.movie_dict p.1).isSome := by
    intro p hp
    have hmem := alookup_mem hu
    obtain ⟨hnd, hall⟩ := hWF.2.2.2 _ hmem
    obtain ⟨m, hm2, hmem2⟩ := movieHasRater_elim (hall p hp)
    rw [hm2]; rfl
  obtain ⟨catN, hloop, hWFN, hudN, hmdN, hccN⟩ :=
    predict_loop_ok movie_id ratings 0 0 cat hWF (by rw [hm]; rfl) hsub
  by_cases hz : (ratings.map (fun p => simValue cat p.1 movie_id)).sum = 0
  · simp only [predict_rating, hu, hnr, hloop, zero_add, hz, if_pos rfl,
      catchKeyError_ok, if_true]
  · simp only [predict_rating, hu, hnr, hloop, zero_add, if_neg hz, catchKeyError_ok]

/-- Witness for C2 on the demo catalog: user 12 rated only movie 1, whose
similarity to movie 2 is 7/9 (one common rater with |4 − 5| = 1, giving
1 − (1 / 4.5)), so the prediction is (3 · 7/9) / (7/9) = 3. -/
theorem C2_weighted_prediction_witness :
    (predict_rating 12 2 demoCat).1 = Except.ok 3 := by
  have h := C2_weighted_prediction demoCat (by decide) 12 2 [(1, 3)] demoMovie2 rfl rfl rfl
  rw [h]
  norm_num [simValue, commonRaters, ratingOf, alookup, demoCat, demoMovie1, demoMovie2,
    demoMovie3, abs_of_nonpos]

/-- C4: assuming the integrity invariants of a loaded catalog and that every
known user has rated at least one movie, `predict_rating` fails with
`BadInputError` exactly when the user id is absent from `user_dict` or the
movie id is absent from `movie_dict`; moreover `BadInputError` is the only
error it can produce (it is returned to the immediate caller, not translated
further). -/
theorem C4_badinput_iff (cat : Catalog) (hWF : WF cat)
    (hNE : ∀ q ∈ cat.user_dict, q.2 ≠ []) (user_id movie_id : ℤ) :
    ((predict_rating user_id movie_id cat).1 = Except.error PyErr.badInput ↔
      (alookup cat.user_dict user_id = none ∨ alookup cat.movie_dict movie_id = none)) ∧
    (∀ e, (predict_rating user_id movie_id cat).1 = Except.error e →
      e = PyErr.badInput) := by
  cases hu : alookup cat.user_dict user_id with
  | none =>
    have hres : (predict_rating user_id movie_id cat).1 = Except.error PyErr.badInput := by
      simp [predict_rating, hu, catchKeyError]
    refine ⟨⟨fun _ => Or.inl rfl, fun _ => hres⟩, ?_⟩
    intro e he
    rw [hres] at he
    injection he with he
    exact he.symm
  | some ratings =>
    have hmem := alookup_mem hu
    cases hr : alookup ratings movie_id with
    | some r =>
      have hres : (predict_rating user_id movie_id cat).1 = Except.ok r := by
        simp only [predict_rating, hu, hr, catchKeyError_ok]
      have hm : (alookup cat.movie_dict movie_id).isSome := by
        obtain ⟨hnd, hall⟩ := hWF.2.2.2 _ hmem
        obtain ⟨m, hm2, hmem2⟩ := movieHasRater_elim (hall _ (alookup_mem hr))
        rw [hm2]; rfl
      constructor
      · constructor
        · intro h
          rw [hres] at h
          exact absurd h (by simp)
        · intro h
          rcases h with h | h
          · exact Option.noConfusion h
          · rw [h] at hm; simp at hm
      · intro e he
        rw [hres] at he
        exact absurd he (by simp)
    | none =>
      cases hm : alookup cat.movie_dict movie_id with
      | some mvT =>
        have hsub : ∀ p ∈ ratings, (alookup cat.movie_dict p.1).isSome := by
          intro p hp
          obtain ⟨hnd, hall⟩ := hWF.2.2.2 _ hmem
          obtain ⟨m, hm2, hmem2⟩ := movieHasRater_elim (hall p hp)
          rw [hm2]; rfl
        obtain ⟨catN, hloop, hWFN, hudN, hmdN, hccN⟩ :=
          predict_loop_ok movie_id ratings 0 0 cat hWF (by rw [hm]; rfl) hsub
        have hres : ∃ v, (predict_rating user_id movie_id cat).1 = Except.ok v := by
          by_cases hz : (0 : ℚ) + (ratings.map (fun p => simValue cat p.1 movie_id)).sum = 0
          · exact ⟨(2.5 : ℚ), by
              simp only [predict_rating, hu, hr, hloop, hz, if_pos rfl, catchKeyError_ok,
                if_true]⟩
          · exact ⟨((0 : ℚ) + (ratings.map (fun p => p.2 * simValue cat p.1 movie_id)).sum) /
                ((0 : ℚ) + (ratings.map (fun p => simValue cat p.1 movie_id)).sum), by
              simp only [predict_rating, hu, hr, hloop, if_neg hz, catchKeyError_ok]⟩
        obtain ⟨v, hres⟩ := hres
        constructor
        · constructor
          · intro h
            rw [hres] at h
            exact absurd h (by simp)
          · intro h
            rcases h with h | h
            · exact Option.noConfusion h
            · exact Option.noConfusion h
        · intro e he
          rw [hres] at he
          exact absurd he (by simp)
      | none =>
        have hne : ratings ≠ [] := hNE _ hmem
        obtain ⟨p0, rest, hrat⟩ := List.exists_cons_of_ne_nil hne
        obtain ⟨m0, r0⟩ := p0
        have hm0 : alookup ratings m0 = some r0 ∨ True := Or.inr trivial
        obtain ⟨hnd, hall⟩ := hWF.2.2.2 _ hmem
        have hp0mem : (m0, r0) ∈ ratings := by rw [hrat]; exact List.mem_cons_self _ _
        obtain ⟨mv0, hmv0, huser⟩ := movieHasRater_elim (hall _ hp0mem)
        have husers : mv0.users ≠ [] := by
          intro h
          rw [h] at huser
          exact absurd huser (List.not_mem_nil _)
        have hcs : compute_similarity mv0 movie_id cat =
            (Except.error PyErr.keyError, bump cat) := by
          have hm2 : alookup (bump cat).movie_dict movie_id = none := hm
          simp only [compute_similarity, if_neg husers, hm2]
        have hloop : predict_loop movie_id ratings 0 0 cat =
            (Except.error PyErr.keyError, bump cat) := by
          rw [hrat]
          simp only [predict_loop, hmv0, hcs]
        have hres : (predict_rating user_id movie_id cat).1 = Except.error PyErr.badInput := by
          simp [predict_rating, hu, hr, hloop, catchKeyError]
        refine ⟨⟨fun _ => Or.inr rfl, fun _ => hres⟩, ?_⟩
        intro e he
        rw [hres] at he
        injection he with he
        exact he.symm

/-- Witness for C4 on the demo catalog: user 99 is unknown and movie 9 is
unknown, so both lookups fail with `BadInputError`, while the known pair
(12, 2) does not produce that error. -/
theorem C4_badinput_iff_witness :
    (predict_rating 99 1 demoCat).1 = Except.error PyErr.badInput ∧
    (predict_rating 12 9 demoCat).1 = Except.error PyErr.badInput ∧
    ¬ (predict_rating 12 2 demoCat).1 = Except.error PyErr.badInput := by
  have h1 := (C4_badinput_iff demoCat (by decide) (by decide) 99 1).1.2 (Or.inl (by decide))
  have h2 := (C4_badinput_iff demoCat (by decide) (by decide) 12 9).1.2 (Or.inr (by decide))
  have h3 := (C4_badinput_iff demoCat (by decide) (by decide) 12 2).1
  refine ⟨h1, h2, fun h => ?_⟩
  rcases h3.1 h with hbad | hbad <;> exact absurd hbad (by decide)

/-! ### The claims about `compute_similarity` -/

/-- C1 counterexample: in `cxCat` movies 1 and 2 have the common rater 10
(their rater sets are not disjoint), yet the computed similarity is exactly 0,
because rater 10 rated them 5.0 and 0.5 and the average absolute difference is
the maximal 4.5, making `1 - 4.5/4.5 = 0`.  So "similarity equals 0 exactly
when the rater sets have empty intersection" fails in the only-if
direction. -/
theorem C1_zero_with_common_rater :
    (compute_similarity cxMovie1 2 cxCat).1 = Except.ok 0 ∧
    commonRaters cxCat 1 2 = [10] := by
  constructor
  · norm_num [compute_similarity, gatherRatings, absDiffs, alookup, dictInsert, setSim,
      setSimList, bump, cxCat, cxMovie1, cxMovie2, abs_of_nonneg]
  · rfl

/-- C1 (amended): on a well-formed catalog, for movies `a` and `b` stored in
the catalog, `compute_similarity` returns 0 whenever the rater sets have empty
intersection, and otherwise returns
`1 - (average absolute rating difference over the common raters / 4.5)` — a
value that can itself be 0 — and the averaged quantity is invariant under any
permutation of the common-rater enumeration. -/
theorem C1_similarity_formula (cat : Catalog) (hWF : WF cat) (a b : ℤ) (ma mb : Movie)
    (ha : alookup cat.movie_dict a = some ma) (hb : alookup cat.movie_dict b = some mb) :
    (commonRaters cat a b = [] → (compute_similarity ma b cat).1 = Except.ok 0) ∧
    (commonRaters cat a b ≠ [] →
      (compute_similarity ma b cat).1 = Except.ok (1 -
        (((commonRaters cat a b).map (fun u => |ratingOf cat u a - ratingOf cat u b|)).sum /
          ((commonRaters cat a b).length : ℚ)) / (4.5 : ℚ))) ∧
    (∀ l : List ℤ, l.Perm (commonRaters cat a b) →
      ((l.map (fun u => |ratingOf cat u a - ratingOf cat u b|)).sum / (l.length : ℚ)) =
      (((commonRaters cat a b).map (fun u => |ratingOf cat u a - ratingOf cat u b|)).sum /
        ((commonRaters cat a b).length : ℚ))) := by
  have hok := compute_similarity_ok hWF ha hb
  refine ⟨?_, ?_, ?_⟩
  · intro hce
    rw [hok]
    simp [simValue, hce]
  · intro hce
    rw [hok]
    simp only [simValue, if_neg hce]
  · intro l hl
    rw [(hl.map (fun u => |ratingOf cat u a - ratingOf cat u b|)).sum_eq, hl.length_eq]

/-- Witness for the amended C1 on the demo catalog: movies 1 and 2 have the
single common rater 10 with ratings 4.0 and 5.0, so the similarity is
`1 - (1/4.5) = 7/9`; and for the reversed enumeration of common raters the
average is unchanged. -/
theorem C1_similarity_formula_witness :
    (compute_similarity demoMovie1 2 demoCat).1 = Except.ok (7/9) := by
  have h := (C1_similarity_formula demoCat (by decide) 1 2 demoMovie1 demoMovie2
    rfl rfl).2.1 (by decide)
  rw [h]
  norm_num [commonRaters, ratingOf, alookup, demoCat, demoMovie1, demoMovie2,
    abs_of_nonpos]

/-- C10: querying a movie's similarity with itself through `get_similarity` is
accepted rather than rejected: on a well-formed catalog whose cache has no
diagonal entry for the movie (e.g. a freshly loaded one), it returns exactly 1
when the movie has at least one rater (every rater is their own co-rater with
absolute difference 0) and exactly 0 when it has none. -/
theorem C10_self_similarity (cat : Catalog) (hWF : WF cat) (m : ℤ) (mv : Movie)
    (hm : alookup cat.movie_dict m = some mv)
    (hnc : alookup mv.similarities m = none) :
    (mv.users ≠ [] → (get_similarity_op m m cat).1 = Except.ok 1) ∧
    (mv.users = [] → (get_similarity_op m m cat).1 = Except.ok 0) := by
  have hid : mv.id = m := (hWF.2.2.1 _ (alookup_mem hm)).1
  have hok := compute_similarity_ok hWF hm hm
  have hmd := compute_similarity_mdata mv m cat
  rcases hcs : compute_similarity mv m cat with ⟨r, cat1⟩
  rw [hcs] at hok hmd
  simp only at hok
  subst hok
  have hlk : (alookup (setSim cat1 mv.id m (simValue cat m m)).movie_dict m).isSome := by
    rw [setSim_alookup, hid, if_pos rfl]
    have hmd2 := hmd m
    unfold mdata at hmd2
    rw [hm] at hmd2
    cases h1 : alookup cat1.movie_dict m
    · rw [h1] at hmd2; simp at hmd2
    · simp
  rw [Option.isSome_iff_exists] at hlk
  obtain ⟨mo, hlk⟩ := hlk
  have hres : (get_similarity_op m m cat).1 = Except.ok (simValue cat m m) := by
    simp only [get_similarity_op, hm, get_similarity, hnc, hcs, hlk, catchKeyError_ok]
  have hcr : commonRaters cat m m = mv.users := by
    unfold commonRaters
    rw [hm]
    rw [List.filter_eq_self]
    intro u hu
    simp [hu]
  constructor
  · intro hne
    rw [hres]
    have hzero : ((commonRaters cat m m).map
        (fun u => |ratingOf cat u m - ratingOf cat u m|)).sum = 0 := by
      apply List.sum_eq_zero
      intro x hx
      rw [List.mem_map] at hx
      obtain ⟨u, hu, hxu⟩ := hx
      rw [← hxu, sub_self, abs_zero]
    simp [simValue, hcr, hne, hzero]
  · intro hee
    rw [hres]
    simp [simValue, hcr, hee]

/-- Witness for C10 on the demo catalog: movie 1 has raters, so its
self-similarity is 1; movie 3 has no raters, so its self-similarity is 0. -/
theorem C10_self_similarity_witness :
    (get_similarity_op 1 1 demoCat).1 = Except.ok 1 ∧
    (get_similarity_op 3 3 demoCat).1 = Except.ok 0 := by
  constructor
  · exact (C10_self_similarity demoCat (by decide) 1 demoMovie1 rfl rfl).1 (by decide)
  · exact (C10_self_similarity demoCat (by decide) 3 demoMovie3 rfl rfl).2 rfl

/-! ### Cache symmetry and memoization across engine operations -/

/-- C5: demonstration that `predict_rating` breaks the cache-symmetry
invariant.  On the freshly loaded `demoCat`, the single call
`predict_rating(12, 2)` computes the similarity of movies 1 and 2 through a
direct `compute_similarity` call (line 66 of the source), whose line-206 cache
write fills only movie 1's cache: afterwards movie 1's cache holds key 2 with
value 7/9 while movie 2's cache has no entry for key 1, so the caches of a
reachable state are not symmetric. -/
theorem C5_predict_breaks_symmetry :
    (alookup (runOps demoCat [EngineOp.predict 12 2]).movie_dict 1).map
        (fun m => alookup m.similarities 2) = some (some (7/9)) ∧
    (alookup (runOps demoCat [EngineOp.predict 12 2]).movie_dict 2).map
        (fun m => alookup m.similarities 1) = some none ∧
    ¬ SymState (runOps demoCat [EngineOp.predict 12 2]) := by
  have hrun : (runOps demoCat [EngineOp.predict 12 2]).movie_dict =
      [ (1, { id := 1, title := "A", users := [10, 12], similarities := [(2, 7/9)] }),
        (2, demoMovie2), (3, demoMovie3) ] := by
    norm_num [runOps, runOp, predict_rating, predict_loop, compute_similarity, gatherRatings,
      absDiffs, alookup, dictInsert, setSim, setSimList, bump, demoCat, demoMovie1,
      demoMovie2, demoMovie3, catchKeyError, abs_of_nonpos, List.cons_ne_nil]
  refine ⟨?_, ?_, ?_⟩
  · rw [hrun]; rfl
  · rw [hrun]; rfl
  · intro h
    have h12 := h (1, { id := 1, title := "A", users := [10, 12], similarities := [(2, 7/9)] })
      (by rw [hrun]; exact List.mem_cons_self _ _)
      (2, demoMovie2)
      (by rw [hrun]; exact List.mem_cons_of_mem _ (List.mem_cons_self _ _))
    simp [alookup, demoMovie2] at h12

/-- C6: demonstration that the co-rater similarity computation for the
unordered pair {1, 2} executes more than once across engine operations,
because `predict_rating` invokes `compute_similarity` directly and never
consults the similarity cache.  The ghost counter counts `compute_similarity`
entries: two `predict_rating(12, 2)` calls (each performing exactly one
pair-(1,2) computation) yield 2, and even after `get_similarity(1, 2)` has
computed and cached the pair on both sides, a following `predict_rating(12,2)`
recomputes it, again yielding 2. -/
theorem C6_pair_recomputed :
    (runOps demoCat [EngineOp.predict 12 2, EngineOp.predict 12 2]).compCount = 2 ∧
    (runOps demoCat [EngineOp.getSim 1 2, EngineOp.predict 12 2]).compCount = 2 := by
  constructor <;>
    norm_num [runOps, runOp, predict_rating, predict_loop, compute_similarity, gatherRatings,
      absDiffs, alookup, dictInsert, setSim, setSimList, bump, demoCat, demoMovie1,
      demoMovie2, demoMovie3, catchKeyError, get_similarity_op, get_similarity,
      abs_of_nonpos, List.cons_ne_nil]

/-- C7: on a well-formed catalog whose caches are in a symmetric state (as
after loading, or after any sequence of `get_similarity` calls), for distinct
stored movies `a ≠ b`: `get_similarity(a, b)` succeeds with some value `v`;
afterwards both movies' caches contain the pair with value `v`;
`get_similarity(b, a)` then returns the identical `v`; calling
`get_similarity(a, b)` a second time returns `v` with the state — including
the computation counter — unchanged; and the first call ran the co-rater
computation at most once. -/
theorem C7_symmetry_memoization (cat : Catalog) (hWF : WF cat) (hSym : SymState cat)
    (a b : ℤ) (ma mb : Movie) (ha : alookup cat.movie_dict a = some ma)
    (hb : alookup cat.movie_dict b = some mb) (hab : a ≠ b) :
    ∃ v : ℚ,
      (get_similarity_op a b cat).1 = Except.ok v ∧
      (∃ m1, alookup (get_similarity_op a b cat).2.movie_dict a = some m1 ∧
        alookup m1.similarities b = some v) ∧
      (∃ m2, alookup (get_similarity_op a b cat).2.movie_dict b = some m2 ∧
        alookup m2.similarities a = some v) ∧
      (get_similarity_op b a (get_similarity_op a b cat).2).1 = Except.ok v ∧
      get_similarity_op a b (get_similarity_op a b cat).2 =
        (Except.ok v, (get_similarity_op a b cat).2) ∧
      (get_similarity_op a b cat).2.compCount ≤ cat.compCount + 1 := by
  cases hc : alookup ma.similarities b with
  | some v =>
    have hrun : get_similarity_op a b cat = (Except.ok v, cat) := by
      simp only [get_similarity_op, ha, get_similarity, hc, catchKeyError_ok]
    have hsym2 : alookup mb.similarities a = some v := by
      have hs2 := hSym _ (alookup_mem ha) _ (alookup_mem hb)
      rw [hc] at hs2
      exact hs2.symm
    refine ⟨v, ?_, ?_, ?_, ?_, ?_, ?_⟩ <;> simp only [hrun]
    · exact ⟨ma, ha, hc⟩
    · exact ⟨mb, hb, hsym2⟩
    · simp only [get_similarity_op, hb, get_similarity, hsym2, catchKeyError_ok]
    · exact Nat.le_succ _
  | none =>
    have hida : ma.id = a := (hWF.2.2.1 _ (alookup_mem ha)).1
    have hok := compute_similarity_ok hWF ha hb
    have hmd := compute_similarity_mdata ma b cat
    have hcc := compute_similarity_compCount ma b cat
    have hoth := compute_similarity_alookup_other ma b cat
    rcases hcs : compute_similarity ma b cat with ⟨r, cat1⟩
    rw [hcs] at hok hmd hcc hoth
    simp only at hok
    subst hok
    have hb1 : alookup cat1.movie_dict b = some mb := by
      rw [hoth b (by rw [hida]; exact Ne.symm hab)]
      exact hb
    have hma1 : ∃ ma1, alookup cat1.movie_dict a = some ma1 := by
      have hmda := hmd a
      unfold mdata at hmda
      rw [ha] at hmda
      cases h1 : alookup cat1.movie_dict a
      · rw [h1] at hmda; simp at hmda
      · exact ⟨_, rfl⟩
    obtain ⟨ma1, hma1⟩ := hma1
    have hlk : alookup (setSim cat1 ma.id b (simValue cat a b)).movie_dict b = some mb := by
      rw [setSim_alookup, hida, if_neg (Ne.symm hab)]
      exact hb1
    have hrun : get_similarity_op a b cat =
        (Except.ok (simValue cat a b),
          setSim (setSim cat1 ma.id b (simValue cat a b)) b ma.id (simValue cat a b)) := by
      simp only [get_similarity_op, ha, get_similarity, hc, hcs, hlk, catchKeyError_ok]
    have ha1 : alookup (setSim (setSim cat1 ma.id b (simValue cat a b)) b ma.id
        (simValue cat a b)).movie_dict a =
        some { ma1 with similarities := dictInsert ma1.similarities b (simValue cat a b) } := by
      rw [setSim_alookup, if_neg hab, setSim_alookup, hida, if_pos rfl, hma1]
      rfl
    have hb2 : alookup (setSim (setSim cat1 ma.id b (simValue cat a b)) b ma.id
        (simValue cat a b)).movie_dict b =
        some { mb with similarities := dictInsert mb.similarities ma.id (simValue cat a b) } := by
      rw [setSim_alookup, if_pos rfl, setSim_alookup, hida, if_neg (Ne.symm hab), hb1]
      rfl
    have hhit1 : alookup (dictInsert ma1.similarities b (simValue cat a b)) b =
        some (simValue cat a b) := by
      rw [dictInsert_alookup, if_pos rfl]
    have hhit2 : alookup (dictInsert mb.similarities ma.id (simValue cat a b)) a =
        some (simValue cat a b) := by
      rw [dictInsert_alookup, if_pos hida.symm]
    refine ⟨simValue cat a b, ?_, ?_, ?_, ?_, ?_, ?_⟩ <;> simp only [hrun]
    · exact ⟨_, ha1, hhit1⟩
    · exact ⟨_, hb2, hhit2⟩
    · simp only [get_similarity_op, hb2, get_similarity, hhit2, catchKeyError_ok]
    · simp only [get_similarity_op, ha1, get_similarity, hhit1, catchKeyError_ok]
    · rw [setSim_compCount, setSim_compCount, hcc]

/-- Witness for C7 on the freshly loaded demo catalog (empty caches are
trivially symmetric): `get_similarity(1, 2)` succeeds, both caches end up
holding the pair, the reversed and repeated queries return the same value, and
at most one computation ran. -/
theorem C7_symmetry_memoization_witness :
    ∃ v : ℚ,
      (get_similarity_op 1 2 demoCat).1 = Except.ok v ∧
      (∃ m1, alookup (get_similarity_op 1 2 demoCat).2.movie_dict 1 = some m1 ∧
        alookup m1.similarities 2 = some v) ∧
      (∃ m2, alookup (get_similarity_op 1 2 demoCat).2.movie_dict 2 = some m2 ∧
        alookup m2.similarities 1 = some v) ∧
      (get_similarity_op 2 1 (get_similarity_op 1 2 demoCat).2).1 = Except.ok v ∧
      get_similarity_op 1 2 (get_similarity_op 1 2 demoCat).2 =
        (Except.ok v, (get_similarity_op 1 2 demoCat).2) ∧
      (get_similarity_op 1 2 demoCat).2.compCount ≤ demoCat.compCount + 1 :=
  C7_symmetry_memoization demoCat (by decide) (by decide) 1 2 demoMovie1 demoMovie2
    rfl rfl (by decide)

/-! ### The batch evaluator -/

theorem titleOf_eq_mdata (cat : Catalog) (i : ℤ) :
    titleOf cat i = (mdata cat i).map (fun x => x.2.1) := by
  unfold titleOf mdata
  cases h : alookup cat.movie_dict i <;> rfl

theorem titleOf_predict (u m : ℤ) (cat : Catalog) (i : ℤ) :
    titleOf (predict_rating u m cat).2 i = titleOf cat i := by
  rw [titleOf_eq_mdata, titleOf_eq_mdata, (predict_rating_frame u m cat).2 i]

theorem predict_ratings_ok_spec (batch : List (ℤ × ℤ × ℚ)) :
    ∀ cat l, (predict_ratings cat batch).1 = Except.ok l →
      l.length = batch.length ∧
      ∀ i u m act, batch[i]? = some (u, m, act) →
        ∃ p t,
          (predict_rating u m (predict_ratings cat (batch.take i)).2).1 = Except.ok p ∧
          titleOf cat m = some t ∧ l[i]? = some (u, t, p, act) := by
  induction batch with
  | nil =>
    intro cat l h
    simp only [predict_ratings, Except.ok.injEq] at h
    subst h
    exact ⟨rfl, fun i u m act hi => by simp at hi⟩
  | cons row rest ih =>
    obtain ⟨u0, m0, act0⟩ := row
    intro cat l h
    rcases hp : predict_rating u0 m0 cat with ⟨r0, cat1⟩
    cases r0 with
    | error e =>
      simp only [predict_ratings, hp] at h
      exact Except.noConfusion h
    | ok p0 =>
      cases ht : alookup cat1.movie_dict m0 with
      | none =>
        simp only [predict_ratings, hp, ht] at h
        exact Except.noConfusion h
      | some mv =>
        rcases hrest : predict_ratings cat1 rest with ⟨rr, cat2⟩
        cases rr with
        | error e =>
          simp only [predict_ratings, hp, ht, hrest] at h
          exact Except.noConfusion h
        | ok lr =>
          simp only [predict_ratings, hp, ht, hrest, Except.ok.injEq] at h
          subst h
          obtain ⟨ihlen, ihrows⟩ := ih cat1 lr (by rw [hrest])
          refine ⟨by simp [ihlen], ?_⟩
          intro i u m act hi
          cases i with
          | zero =>
            simp only [List.getElem?_cons_zero, Option.some.injEq, Prod.mk.injEq] at hi
            obtain ⟨hu, hm, hact⟩ := hi
            subst hu
            subst hm
            subst hact
            refine ⟨p0, mv.title, ?_, ?_, by simp⟩
            · show (predict_rating u0 m0 (predict_ratings cat []).2).1 = Except.ok p0
              simp only [predict_ratings, hp]
            · have hfr := titleOf_predict u0 m0 cat m0
              rw [hp] at hfr
              simp only at hfr
              rw [← hfr]
              unfold titleOf
              rw [ht]
              rfl
          | succ j =>
            simp only [List.getElem?_cons_succ] at hi
            obtain ⟨p, t, hpred, htit, hrow⟩ := ihrows j u m act hi
            refine ⟨p, t, ?_, ?_, ?_⟩
            · rw [List.take_succ_cons]
              have hstate : (predict_ratings cat ((u0, m0, act0) :: rest.take j)).2 =
                  (predict_ratings cat1 (rest.take j)).2 := by
                rcases hinner : predict_ratings cat1 (rest.take j) with ⟨ri, ci⟩
                cases ri <;> simp only [predict_ratings, hp, ht, hinner]
              rw [hstate]
              exact hpred
            · have hfr := titleOf_predict u0 m0 cat m
              rw [hp] at hfr
              simp only at hfr
              rw [← hfr]
              exact htit
            · simp only [List.getElem?_cons_succ]
              exact hrow

theorem predict_ratings_error_spec (pre : List (ℤ × ℤ × ℚ)) :
    ∀ cat post u m act lpre e,
      (predict_ratings cat pre).1 = Except.ok lpre →
      (predict_rating u m (predict_ratings cat pre).2).1 = Except.error e →
      (predict_ratings cat (pre ++ (u, m, act) :: post)).1 = Except.error e := by
  induction pre with
  | nil =>
    intro cat post u m act lpre e hok herr
    have herr2 : (predict_rating u m cat).1 = Except.error e := herr
    rcases hp : predict_rating u m cat with ⟨r, c⟩
    rw [hp] at herr2
    simp only at herr2
    subst herr2
    show (predict_ratings cat ((u, m, act) :: post)).1 = Except.error e
    simp only [predict_ratings, hp]
  | cons row rest ih =>
    obtain ⟨u0, m0, act0⟩ := row
    intro cat post u m act lpre e hok herr
    rcases hp : predict_rating u0 m0 cat with ⟨r0, cat1⟩
    cases r0 with
    | error e0 =>
      simp only [predict_ratings, hp] at hok
      exact Except.noConfusion hok
    | ok p0 =>
      cases ht : alookup cat1.movie_dict m0 with
      | none =>
        simp only [predict_ratings, hp, ht] at hok
        exact Except.noConfusion hok
      | some mv =>
        rcases hrest : predict_ratings cat1 rest with ⟨rr, cat2⟩
        cases rr with
        | error e1 =>
          simp only [predict_ratings, hp, ht, hrest] at hok
          exact Except.noConfusion hok
        | ok lr =>
          have hpre2 : (predict_ratings cat ((u0, m0, act0) :: rest)).2 = cat2 := by
            simp only [predict_ratings, hp, ht, hrest]
          rw [hpre2] at herr
          have herr2 : (predict_rating u m (predict_ratings cat1 rest).2).1 =
              Except.error e := by
            rw [hrest]
            exact herr
          have hrec := ih cat1 post u m act lr e (by rw [hrest]) herr2
          rcases hfull : predict_ratings cat1 (rest ++ (u, m, act) :: post) with ⟨rf, cf⟩
          rw [hfull] at hrec
          simp only at hrec
          subst hrec
          simp only [List.cons_append, predict_ratings, hp, ht, List.append_eq, hfull]

/-- C8: `predict_ratings` emits exactly one tuple
`(user_id, movie_title, predicted_rating, actual_rating)` per input row, in
input order with no deduplication or filtering, where the predicted rating is
the result of `predict_rating` on that row's user and movie (run in the state
reached after the preceding rows); and if `predict_rating` fails on some row
(e.g. with `BadInputError`), the whole batch fails with that very error and no
partial result list is returned. -/
theorem C8_batch_evaluator (cat : Catalog) (batch : List (ℤ × ℤ × ℚ)) :
    (∀ l, (predict_ratings cat batch).1 = Except.ok l →
      l.length = batch.length ∧
      ∀ i u m act, batch[i]? = some (u, m, act) →
        ∃ p t,
          (predict_rating u m (predict_ratings cat (batch.take i)).2).1 = Except.ok p ∧
          titleOf cat m = some t ∧ l[i]? = some (u, t, p, act)) ∧
    (∀ pre u m act post lpre e, batch = pre ++ (u, m, act) :: post →
      (predict_ratings cat pre).1 = Except.ok lpre →
      (predict_rating u m (predict_ratings cat pre).2).1 = Except.error e →
      (predict_ratings cat batch).1 = Except.error e) := by
  constructor
  · exact predict_ratings_ok_spec batch cat
  · intro pre u m act post lpre e hb hok herr
    subst hb
    exact predict_ratings_error_spec pre cat post u m act lpre e hok herr

/-- Witness for C8 on the demo catalog: a two-row batch for user 12 produces
the two expected tuples in order, and a batch whose first row names the
unknown user 99 aborts with `BadInputError`. -/
theorem C8_batch_evaluator_witness :
    (predict_ratings demoCat [(12, 1, 3), (99, 1, 2)]).1 = Except.error PyErr.badInput := by
  have herr : (predict_rating 99 1 (predict_ratings demoCat [(12, 1, 3)]).2).1 =
      Except.error PyErr.badInput := rfl
  have hok : (predict_ratings demoCat [(12, 1, 3)]).1 = Except.ok [(12, "A", 3, 3)] := rfl
  exact (C8_batch_evaluator demoCat [(12, 1, 3), (99, 1, 2)]).2
    [(12, 1, 3)] 99 1 2 [] [(12, "A", 3, 3)] PyErr.badInput rfl hok herr

end MovieRec
